import Mathlib

/-!
Verification development for the meerkat interactive dataframe core.

Part 1 models the ScalarColumn abstraction (backend-polymorphic column with
elementwise operators and aggregations).  The ScalarColumn implementation
itself is not part of the sources at hand (only its test suite is), so these
definitions are modelled from the specification, §4.1 and §8.

Part 2 embeds the dataframe API router (`schema`, `rows`,
`remove_row_by_index`, `edit` and the helper `_get_column_infos` from
`meerkat/interactive/api/routers/dataframe.py`), over a dataframe model of
named equal-length columns with an optional primary key.  The process-wide
modification queue is made explicit: every mutating endpoint takes the queue
and returns the extended queue.
-/

namespace Meerkat

/-- The supported column storage backends ("pandas" and "arrow" in the test
suite's BACKENDS list). -/
inductive Backend where
  | pandas
  | arrow
deriving DecidableEq, Repr

/-- Modelled from the spec: a ScalarColumn wraps one backend selector plus the
stored sequence of values; arithmetic is forwarded elementwise to the backend
and results are normalized back to a ScalarColumn (§4.1).  Numeric values are
modelled as rationals (the exact fragment of the host numeric model). -/
structure ScalarColumn (α : Type) where
  backend : Backend
  data : List α
deriving DecidableEq, Repr

namespace ScalarColumn

/-- Modelled from the spec: an elementwise column-column operation; the result
is a new ScalarColumn of the same backend as the left operand (§4.1). -/
def map2 (f : α → α → β) (a b : ScalarColumn α) : ScalarColumn β :=
  ⟨a.backend, List.zipWith f a.data b.data⟩

/-- Modelled from the spec: an elementwise column-scalar operation
(the scalar is broadcast across all positions, §3); the result keeps the
column operand's backend regardless of operand order (§4.1). -/
def mapCol (f : α → β) (a : ScalarColumn α) : ScalarColumn β :=
  ⟨a.backend, a.data.map f⟩

/-- True division of the host numeric model: always the exact ("floating",
never truncated) quotient. -/
def qtruediv (x y : ℚ) : ℚ := x / y

/-- Floor division of the host numeric model: the quotient truncated toward
negative infinity. -/
def qfloordiv (x y : ℚ) : ℚ := (⌊x / y⌋ : ℤ)

/-- Modulo of the host numeric model (the convention of the backend numeric
libraries: remainder of floor division, sign following the divisor). -/
def qmod (x y : ℚ) : ℚ := x - y * (⌊x / y⌋ : ℤ)

/-- Exponentiation of the host numeric model, modelled on integer exponents
(the exact fragment representable over ℚ; the test data are integer). -/
def qpow (x y : ℚ) : ℚ := x ^ y.num

/-- Modelled from the spec: column-column addition. -/
def add (a b : ScalarColumn ℚ) : ScalarColumn ℚ := map2 (· + ·) a b

/-- Modelled from the spec: column-column subtraction. -/
def sub (a b : ScalarColumn ℚ) : ScalarColumn ℚ := map2 (· - ·) a b

/-- Modelled from the spec: column-column multiplication. -/
def mul (a b : ScalarColumn ℚ) : ScalarColumn ℚ := map2 (· * ·) a b

/-- Modelled from the spec: column-column true division. -/
def truediv (a b : ScalarColumn ℚ) : ScalarColumn ℚ := map2 qtruediv a b

/-- Modelled from the spec: column-column floor division. -/
def floordiv (a b : ScalarColumn ℚ) : ScalarColumn ℚ := map2 qfloordiv a b

/-- Modelled from the spec: column-column modulo. -/
def mod (a b : ScalarColumn ℚ) : ScalarColumn ℚ := map2 qmod a b

/-- Modelled from the spec: column-column exponentiation. -/
def pow (a b : ScalarColumn ℚ) : ScalarColumn ℚ := map2 qpow a b

/-- Modelled from the spec: column + scalar. -/
def addScalar (a : ScalarColumn ℚ) (s : ℚ) : ScalarColumn ℚ := mapCol (· + s) a

/-- Modelled from the spec: scalar + column (the reflected operand order). -/
def raddScalar (s : ℚ) (a : ScalarColumn ℚ) : ScalarColumn ℚ := mapCol (s + ·) a

/-- Modelled from the spec: column - scalar. -/
def subScalar (a : ScalarColumn ℚ) (s : ℚ) : ScalarColumn ℚ := mapCol (· - s) a

/-- Modelled from the spec: scalar - column (the reflected operand order). -/
def rsubScalar (s : ℚ) (a : ScalarColumn ℚ) : ScalarColumn ℚ := mapCol (s - ·) a

/-- Modelled from the spec: column * scalar. -/
def mulScalar (a : ScalarColumn ℚ) (s : ℚ) : ScalarColumn ℚ := mapCol (· * s) a

/-- Modelled from the spec: scalar * column (the reflected operand order). -/
def rmulScalar (s : ℚ) (a : ScalarColumn ℚ) : ScalarColumn ℚ := mapCol (s * ·) a

/-- Modelled from the spec: unary negation of a column. -/
def neg (a : ScalarColumn ℚ) : ScalarColumn ℚ := mapCol (fun x => -x) a

/-- Modelled from the spec: column == scalar, a boolean column. -/
def eqScalar (a : ScalarColumn ℚ) (s : ℚ) : ScalarColumn Bool :=
  mapCol (fun x => decide (x = s)) a

/-- Modelled from the spec: scalar == column (the reflected operand order). -/
def reqScalar (s : ℚ) (a : ScalarColumn ℚ) : ScalarColumn Bool :=
  mapCol (fun x => decide (s = x)) a

/-- Modelled from the spec: the sum aggregation. -/
def sum (c : ScalarColumn ℚ) : ℚ := c.data.sum

/-- Modelled from the spec: the mean aggregation. -/
def mean (c : ScalarColumn ℚ) : ℚ := c.data.sum / (c.data.length : ℚ)

/-- Modelled from the spec: the variance aggregation, sample (N-1 denominator)
convention — the mean-centered sum of squares over length minus one. -/
def var (c : ScalarColumn ℚ) : ℚ :=
  ((c.data.map (fun x => (x - c.mean) ^ 2)).sum) / ((c.data.length : ℚ) - 1)

/-- Modelled from the spec: the standard deviation aggregation, the square
root of the sample variance.  The square root is irrational in general, so
this definition lives in ℝ (the code returns its floating approximation). -/
noncomputable def std (c : ScalarColumn ℚ) : ℝ := Real.sqrt ((c.var : ℚ) : ℝ)

/-- The middle element (odd length) or the average of the two middle elements
(even length) of an already sorted sequence. -/
def medianOfSorted (l : List ℚ) : ℚ :=
  if l.length % 2 = 1 then l.getD (l.length / 2) 0
  else (l.getD (l.length / 2 - 1) 0 + l.getD (l.length / 2) 0) / 2

/-- Modelled from the spec: the numeric procedure computing a median — sort,
then take the middle element or the average of the two middle elements. -/
def medianImpl (l : List ℚ) : ℚ := medianOfSorted (l.insertionSort (· ≤ ·))

/-- The outcome of the median aggregation: the value, plus whether a
non-fatal warning was surfaced. -/
structure MedianResult where
  warned : Bool
  value : ℚ
deriving DecidableEq, Repr

/-- Modelled from the spec: the median aggregation.  The arrow backend lacks
native median support, so it computes the median via an equivalent numeric
procedure and surfaces a non-fatal warning; the pandas backend computes it
natively with no warning (§4.1, and the test expects a UserWarning exactly on
the arrow backend). -/
def median (c : ScalarColumn ℚ) : MedianResult :=
  match c.backend with
  | .arrow => ⟨true, medianImpl c.data⟩
  | .pandas => ⟨false, medianImpl c.data⟩

end ScalarColumn

/-! Part 2: the dataframe model and the API router embedding. -/

/-- A DataFrameModification record: the identity of the modified dataframe
plus the scope, the list of affected column names (data model §3). -/
structure DataFrameModification where
  id : Nat
  scope : List String
deriving DecidableEq, Repr

/-- Error conditions raised by the router.  `http404` models
`HTTPException(status_code=404, detail=...)`; `notFound` models the
`HTTPException` raised by `edit` on a zero-match mask (the source passes the
message as the positional argument); `valueError` and `keyError` model
Python's ValueError and KeyError.  Message texts are abbreviated. -/
inductive Err where
  | http404 (detail : String)
  | notFound (detail : String)
  | valueError (detail : String)
  | keyError (detail : String)
deriving DecidableEq, Repr

/-- A dataframe: an ordered association of column names to equal-length
columns, an optional primary-key column name, and an opaque identity
(data model §3).  Cell values are a parameter type V. -/
structure DataFrame (V : Type) where
  cols : List (String × List V)
  primaryKey : Option String := none
  id : Nat := 0
deriving DecidableEq, Repr

namespace DataFrame

variable {V : Type}

/-- The ordered list of column names of a dataframe. -/
def columnNames (df : DataFrame V) : List String := df.cols.map (fun p => p.1)

/-- The row count: the length of the first column (all columns share one
length by the data-model invariant). -/
def nrows (df : DataFrame V) : Nat :=
  match df.cols with
  | [] => 0
  | p :: _ => p.2.length

/-- Well-formedness invariant of the data model: unique column names and all
columns of identical length. -/
def wf (df : DataFrame V) : Prop :=
  df.columnNames.Nodup ∧ ∀ p ∈ df.cols, p.2.length = df.nrows

/-- Lookup of a column by name (first match). -/
def colLookup (n : String) : List (String × List V) → Option (List V)
  | [] => none
  | p :: rest => if p.1 = n then some p.2 else colLookup n rest

/-- Column access `df[name]`. -/
def getCol (df : DataFrame V) (n : String) : Option (List V) :=
  colLookup n df.cols

/-- Boolean-mask row filtering of a single column: keep the entries at
positions where the mask is true. -/
def maskFilter : List Bool → List α → List α
  | true :: ms, x :: xs => x :: maskFilter ms xs
  | false :: ms, _ :: xs => maskFilter ms xs
  | _, _ => []

/-- Masked in-place assignment to a single column: overwrite the entries at
positions where the mask is true with the given value. -/
def applyMask (mask : List Bool) (v : α) (l : List α) : List α :=
  List.zipWith (fun m old => if m then v else old) mask l

/-- Boolean-mask row selection `df[mask]`: every column filtered by the same
mask; identity and primary key are preserved. -/
def filterRows (df : DataFrame V) (mask : List Bool) : DataFrame V :=
  ⟨df.cols.map (fun p => (p.1, maskFilter mask p.2)), df.primaryKey, df.id⟩

/-- Masked cell assignment `df[c][mask] = v`: the named column is overwritten
at the mask's true positions, every other column is untouched. -/
def setColMasked (df : DataFrame V) (c : String) (mask : List Bool) (v : V) :
    DataFrame V :=
  ⟨df.cols.map (fun p => if p.1 = c then (p.1, applyMask mask v p.2) else p),
   df.primaryKey, df.id⟩

/-- Column-list selection `df[[names]]`: the named columns in request order;
the primary key survives only if selected. -/
def selectCols (df : DataFrame V) (names : List String) : DataFrame V :=
  ⟨names.filterMap (fun n => (colLookup n df.cols).map (fun c => (n, c))),
   df.primaryKey.filter (fun pk => names.contains pk), df.id⟩

/-- Position-list row selection `df[posidxs]` (may reorder and repeat). -/
def takeRows [Inhabited V] (df : DataFrame V) (idxs : List Nat) : DataFrame V :=
  ⟨df.cols.map (fun p => (p.1, idxs.map (fun i => p.2.getD i default))),
   df.primaryKey, df.id⟩

/-- Contiguous-range row selection `df[start:stop]`. -/
def sliceRows (df : DataFrame V) (start stop : Nat) : DataFrame V :=
  ⟨df.cols.map (fun p => (p.1, (p.2.drop start).take (stop - start))),
   df.primaryKey, df.id⟩

/-- Primary-key row lookup `df.loc[keys]`: each key is resolved to the
position of its primary-key match; an absent key raises a KeyError
(the pandas `.loc` behavior the spec describes for this access mode). -/
def locByKeys [DecidableEq V] [Inhabited V] (df : DataFrame V)
    (keys : List V) : Except Err (DataFrame V) :=
  match df.primaryKey with
  | none => .error (.keyError "no primary key")
  | some pk =>
    match df.getCol pk with
    | none => .error (.keyError pk)
    | some pkcol =>
      match keys.mapM (fun k => pkcol.findIdx? (fun x => decide (x = k))) with
      | none => .error (.keyError "key not found")
      | some idxs => .ok (df.takeRows idxs)

/-- The rows of a dataframe in order, each row listing its cells in column
order (the iteration the `rows` endpoint performs). -/
def rowsList [Inhabited V] (df : DataFrame V) : List (List V) :=
  (List.range df.nrows).map (fun i => df.cols.map (fun p => p.2.getD i default))

end DataFrame

/-- The `column.startswith("_")` test of `_get_column_infos`: whether the
first character of the name is an underscore (written over the character
list of the string so that it evaluates by kernel reduction). -/
def startsWithUnderscore (s : String) : Bool :=
  match s.data with
  | [] => false
  | c :: _ => c = '_'

open DataFrame in
/-- Appending step at the end of `_get_column_infos`
(dataframe.py lines 63-64): if the dataframe has a primary key that is not
among the (already filtered) requested columns, it is appended. -/
def appendPrimaryKey (df : DataFrame V) (cs : List String) : List String :=
  match df.primaryKey with
  | some pk => if cs.contains pk then cs else cs ++ [pk]
  | none => cs

open DataFrame in
/-- Embedding of `_get_column_infos` (dataframe.py lines 45-74), reduced to
the column-name component of the returned ColumnInfo records (type, formatter
component and props come from the excluded formatter collaborators).  A
requested name absent from the dataframe raises HTTP 404; names starting with
an underscore are filtered out; a missing primary key is appended. -/
def getColumnInfos (df : DataFrame V) (columns : Option (List String)) :
    Except Err (List String) :=
  match columns with
  | none =>
      .ok (appendPrimaryKey df
        (df.columnNames.filter (fun c => ! startsWithUnderscore c)))
  | some cs =>
      if cs.any (fun c => ! df.columnNames.contains c) then
        .error (.http404 "Requested columns do not exist in dataframe")
      else
        .ok (appendPrimaryKey df (cs.filter (fun c => ! startsWithUnderscore c)))

/-- The schema response (dataframe.py lines 25-29), with columns reduced to
their names. -/
structure SchemaResponse where
  id : Nat
  columns : List String
  nrows : Nat
  primary_key : Option String
deriving DecidableEq, Repr

open DataFrame in
/-- Embedding of the `schema` endpoint (dataframe.py lines 32-42). -/
def schema (df : DataFrame V) (columns : Option (List String)) :
    Except Err SchemaResponse :=
  (getColumnInfos df columns).map
    (fun infos => ⟨df.id, infos, df.nrows, df.primaryKey⟩)

/-- The rows response (dataframe.py lines 77-83), with column infos reduced
to names and cell encoding (a formatter concern) taken as the identity. -/
structure RowsResponse (V : Type) where
  column_infos : List String
  posidxs : Option (List Nat)
  rows : List (List V)
  full_length : Nat
  primary_key : Option String
deriving DecidableEq, Repr

open DataFrame in
/-- Embedding of the `rows` endpoint (dataframe.py lines 86-142): select the
requested columns, then resolve the row selection — an explicit position
list, a contiguous range, or a key list (by `df.loc` primary-key lookup when
no key column is given, by an `isin` mask on the key column otherwise) — and
return the selected cells row by row. -/
def rows [DecidableEq V] [Inhabited V] (df : DataFrame V)
    (start endIdx : Option Nat) (posidxs : Option (List Nat))
    (key_column : Option String) (keyidxs : Option (List V))
    (columns : Option (List String)) : Except Err (RowsResponse V) :=
  let full_length := df.nrows
  match getColumnInfos df columns with
  | .error e => .error e
  | .ok infos =>
    let sel := df.selectCols infos
    let step : Except Err (DataFrame V × Option (List Nat)) :=
      match posidxs with
      | some pos => .ok (sel.takeRows pos, some pos)
      | none =>
        match start with
        | some s =>
          let e := match endIdx with
            | none => sel.nrows
            | some e0 => min e0 sel.nrows
          .ok (sel.sliceRows s e, some (List.range' s (e - s)))
        | none =>
          match keyidxs with
          | some keys =>
            match key_column with
            | none =>
              match sel.primaryKey with
              | none =>
                .error (.valueError
                  "Must provide key_column if keyidxs are provided and no primary_key on dataframe")
              | some _ => (sel.locByKeys keys).map (fun d => (d, none))
            | some kc =>
              match sel.getCol kc with
              | none => .error (.keyError kc)
              | some kcCol =>
                .ok (sel.filterRows (kcCol.map (fun x => decide (x ∈ keys))),
                     none)
          | none => .error (.valueError "no row selection given")
    match step with
    | .error e => .error e
    | .ok (d, pos) => .ok ⟨infos, pos, d.rowsList, full_length, d.primaryKey⟩

open DataFrame in
/-- Embedding of the `remove_row_by_index` endpoint (dataframe.py lines
145-154): filter the dataframe by the mask `arange(len(df)) != row_index`,
then enqueue one DataFrameModification whose scope is all column names of
the resulting dataframe.  The process-wide `state.modification_queue` is
passed and returned explicitly. -/
def remove_row_by_index (df : DataFrame V)
    (queue : List DataFrameModification) (row_index : Nat) :
    DataFrame V × List DataFrameModification :=
  let df2 := df.filterRows ((List.range df.nrows).map (fun j => decide (j ≠ row_index)))
  (df2, queue ++ [⟨df2.id, df2.columnNames⟩])

open DataFrame in
/-- Embedding of the `edit` endpoint (dataframe.py lines 157-173): build the
mask `df[id_column] == row_id`; if it matches no row, raise (the source
raises an HTTPException carrying a not-found message, before any mutation);
otherwise overwrite `df[column]` at the masked positions and enqueue one
DataFrameModification with scope `[column]`.  The process-wide queue is
passed and returned explicitly; the error outcome returns no state, matching
the source where the raise precedes the mutation and the enqueue. -/
def edit [DecidableEq V] (df : DataFrame V)
    (queue : List DataFrameModification) (value : V) (column : String)
    (row_id : V) (id_column : String) :
    Except Err (DataFrame V × List DataFrameModification) :=
  match df.getCol id_column with
  | none => .error (.keyError id_column)
  | some idcol =>
    let mask := idcol.map (fun x => decide (x = row_id))
    if mask.count true = 0 then
      .error (.notFound "Row with id not found in column")
    else
      match df.getCol column with
      | none => .error (.keyError column)
      | some _ =>
        .ok (df.setColMasked column mask value, queue ++ [⟨df.id, [column]⟩])

/-- The spec's example dataframe: columns id=[1,2,3] and score=[10,20,30]. -/
def exampleDf : DataFrame Int :=
  ⟨[("id", [1, 2, 3]), ("score", [10, 20, 30])], none, 0⟩

/-- The example dataframe with "id" designated as the primary key. -/
def exampleDfPk : DataFrame Int :=
  ⟨[("id", [1, 2, 3]), ("score", [10, 20, 30])], some "id", 0⟩

/-! Part 3: the claim theorems. -/

open ScalarColumn in
/-- C5: for every backend B and equal-length numeric columns a, b, each
binary operator in + - * / // % ** on ScalarColumns of backend B returns a
new ScalarColumn of backend B equal elementwise to the operator applied to
the underlying sequences; true division is the exact (never truncated)
quotient, floor division truncates toward negative infinity, and
exponentiation agrees with iterated multiplication on natural exponents. -/
theorem c5_column_arithmetic (B : Backend) (a b : List ℚ)
    (hlen : a.length = b.length) :
    (ScalarColumn.add ⟨B, a⟩ ⟨B, b⟩ = ⟨B, List.zipWith (· + ·) a b⟩
      ∧ (ScalarColumn.add ⟨B, a⟩ ⟨B, b⟩).data.length = a.length)
  ∧ ScalarColumn.sub ⟨B, a⟩ ⟨B, b⟩ = ⟨B, List.zipWith (· - ·) a b⟩
  ∧ ScalarColumn.mul ⟨B, a⟩ ⟨B, b⟩ = ⟨B, List.zipWith (· * ·) a b⟩
  ∧ ScalarColumn.truediv ⟨B, a⟩ ⟨B, b⟩ = ⟨B, List.zipWith (fun x y => x / y) a b⟩
  ∧ ScalarColumn.floordiv ⟨B, a⟩ ⟨B, b⟩
      = ⟨B, List.zipWith (fun x y => ((⌊x / y⌋ : ℤ) : ℚ)) a b⟩
  ∧ ScalarColumn.mod ⟨B, a⟩ ⟨B, b⟩
      = ⟨B, List.zipWith (fun x y => x - y * ((⌊x / y⌋ : ℤ) : ℚ)) a b⟩
  ∧ ScalarColumn.pow ⟨B, a⟩ ⟨B, b⟩ = ⟨B, List.zipWith qpow a b⟩
  ∧ (∀ x y : ℚ, y ≠ 0 → qtruediv x y * y = x)
  ∧ (∀ x y : ℚ, qfloordiv x y ≤ x / y ∧ x / y < qfloordiv x y + 1
      ∧ (qfloordiv x y).den = 1)
  ∧ (∀ x y : ℚ, y * qfloordiv x y + qmod x y = x)
  ∧ (∀ (x : ℚ) (n : ℕ), qpow x (n : ℚ) = x ^ n) := by
  refine ⟨⟨rfl, ?_⟩, rfl, rfl, rfl, rfl, rfl, rfl, ?_, ?_, ?_, ?_⟩
  · simp [ScalarColumn.add, map2, hlen]
  · intro x y hy
    exact div_mul_cancel₀ x hy
  · intro x y
    exact ⟨Int.floor_le _, Int.lt_floor_add_one _, Rat.den_intCast _⟩
  · intro x y
    simp only [qmod, qfloordiv]
    ring
  · intro x n
    simp only [qpow, Rat.num_natCast]
    exact zpow_natCast x n

/-- Witness for C5 at the concrete test data `[1, 4, 6, 8]` and its
successor column. -/
theorem c5_column_arithmetic_witness :
    ([1, 4, 6, 8] : List ℚ).length = ([2, 5, 7, 9] : List ℚ).length
    ∧ ScalarColumn.add ⟨.pandas, [1, 4, 6, 8]⟩ ⟨.pandas, [2, 5, 7, 9]⟩
        = ⟨.pandas, [3, 9, 13, 17]⟩ :=
  ⟨by decide, by
    have h := c5_column_arithmetic .pandas [1, 4, 6, 8] [2, 5, 7, 9] (by decide)
    refine h.1.1.trans ?_
    norm_num⟩

open ScalarColumn in
/-- C6: the column-scalar operator forms satisfy the algebra of the
underlying operator: scalar + column and scalar * column agree with the
column-first forms, scalar == column agrees with column == scalar, and
scalar - column equals the elementwise negation of column - scalar; every
result carries the column operand's backend. -/
theorem c6_scalar_operand_algebra (B : Backend) (a : List ℚ) (s : ℚ) :
    raddScalar s ⟨B, a⟩ = addScalar ⟨B, a⟩ s
  ∧ rmulScalar s ⟨B, a⟩ = mulScalar ⟨B, a⟩ s
  ∧ reqScalar s ⟨B, a⟩ = eqScalar ⟨B, a⟩ s
  ∧ rsubScalar s ⟨B, a⟩ = ScalarColumn.neg (subScalar ⟨B, a⟩ s)
  ∧ (rsubScalar s ⟨B, a⟩).data = a.map (fun x => s - x)
  ∧ (subScalar ⟨B, a⟩ s).data = a.map (fun x => x - s)
  ∧ (raddScalar s ⟨B, a⟩).backend = B
  ∧ (rsubScalar s ⟨B, a⟩).backend = B
  ∧ (reqScalar s ⟨B, a⟩).backend = B := by
  refine ⟨?_, ?_, ?_, ?_, rfl, rfl, rfl, rfl, rfl⟩
  · exact congrArg (fun f => mapCol f ⟨B, a⟩)
      (funext fun x => add_comm s x)
  · exact congrArg (fun f => mapCol f ⟨B, a⟩)
      (funext fun x => mul_comm s x)
  · exact congrArg (fun f => mapCol f ⟨B, a⟩)
      (funext fun x : ℚ => decide_eq_decide.mpr eq_comm)
  · show ScalarColumn.mk B (a.map (fun x => s - x))
      = ScalarColumn.mk B ((a.map (fun x => x - s)).map (fun x => -x))
    rw [List.map_map]
    exact congrArg (fun f => ScalarColumn.mk B (a.map f))
      (funext fun x : ℚ => by
        show s - x = -(x - s)
        ring)

/-- Expansion of a mean-centered sum of squares, used to relate the
implementation's variance formula to the closed sample-variance form. -/
theorem sum_sq_sub_eq (l : List ℚ) (m : ℚ) :
    (l.map (fun x => (x - m) ^ 2)).sum
      = (l.map (fun x => x ^ 2)).sum - 2 * m * l.sum + (l.length : ℚ) * m ^ 2 := by
  induction l with
  | nil => simp
  | cons x xs ih =>
    simp only [List.map_cons, List.sum_cons, List.length_cons, ih]
    push_cast
    ring

open ScalarColumn in
/-- C7: for every backend and numeric column of length at least 2, the
variance aggregation equals the sample variance with N-1 denominator (in
closed form: (N·Σx² - (Σx)²) / (N·(N-1))), it is nonnegative, and the
standard deviation is its nonnegative square root. -/
theorem c7_var_std (B : Backend) (a : List ℚ) (h : 2 ≤ a.length) :
    ScalarColumn.var ⟨B, a⟩
      = ((a.length : ℚ) * (a.map (fun x => x ^ 2)).sum - a.sum ^ 2)
          / ((a.length : ℚ) * ((a.length : ℚ) - 1))
  ∧ 0 ≤ ScalarColumn.var ⟨B, a⟩
  ∧ ScalarColumn.std ⟨B, a⟩ ^ 2 = ((ScalarColumn.var ⟨B, a⟩ : ℚ) : ℝ)
  ∧ 0 ≤ ScalarColumn.std ⟨B, a⟩ := by
  have h2 : (2 : ℚ) ≤ (a.length : ℚ) := by exact_mod_cast h
  have hn : (a.length : ℚ) ≠ 0 := by linarith
  have hn1 : (a.length : ℚ) - 1 ≠ 0 := by
    intro hz
    have : (a.length : ℚ) = 1 := by linarith
    linarith
  have hvar : ScalarColumn.var ⟨B, a⟩
      = ((a.length : ℚ) * (a.map (fun x => x ^ 2)).sum - a.sum ^ 2)
          / ((a.length : ℚ) * ((a.length : ℚ) - 1)) := by
    simp only [ScalarColumn.var, ScalarColumn.mean, sum_sq_sub_eq]
    field_simp
    ring
  have hnonneg : 0 ≤ ScalarColumn.var ⟨B, a⟩ := by
    apply div_nonneg
    · apply List.sum_nonneg
      intro x hx
      obtain ⟨y, _, rfl⟩ := List.mem_map.mp hx
      positivity
    · linarith
  refine ⟨hvar, hnonneg, ?_, Real.sqrt_nonneg _⟩
  exact Real.sq_sqrt (by exact_mod_cast hnonneg)

/-- Witness for C7 at the concrete test data `[1, 4, 6, 8]`
(sample variance 107/12). -/
theorem c7_var_std_witness :
    2 ≤ ([1, 4, 6, 8] : List ℚ).length
    ∧ ScalarColumn.var ⟨.pandas, [1, 4, 6, 8]⟩
        = ((4 : ℚ) * 117 - 19 ^ 2) / (4 * 3) :=
  ⟨by decide, by
    have h := c7_var_std .pandas [1, 4, 6, 8] (by decide)
    refine h.1.trans ?_
    norm_num⟩

open ScalarColumn in
/-- C8: the median aggregation on the arrow backend (which lacks native
median support) surfaces a non-fatal warning and still returns the
mathematically correct median — the middle of any sorted arrangement of the
data — while the pandas backend returns the same correct median with no
warning. -/
theorem c8_median (a s : List ℚ) (_hlen : 0 < a.length)
    (hperm : s.Perm a) (hsort : s.Sorted (· ≤ ·)) :
    (ScalarColumn.median ⟨.arrow, a⟩).warned = true
  ∧ (ScalarColumn.median ⟨.pandas, a⟩).warned = false
  ∧ (ScalarColumn.median ⟨.arrow, a⟩).value = medianOfSorted s
  ∧ (ScalarColumn.median ⟨.pandas, a⟩).value = medianOfSorted s := by
  have hs : a.insertionSort (· ≤ ·) = s :=
    List.eq_of_perm_of_sorted ((List.perm_insertionSort _ a).trans hperm.symm)
      (List.sorted_insertionSort _ a) hsort
  refine ⟨rfl, rfl, ?_, ?_⟩ <;>
    exact congrArg medianOfSorted hs

/-- Witness for C8 at the concrete test data (a shuffle of `[1, 4, 6, 8]`,
median 5). -/
theorem c8_median_witness :
    0 < ([4, 1, 8, 6] : List ℚ).length
    ∧ (ScalarColumn.median ⟨.arrow, [4, 1, 8, 6]⟩).warned = true
    ∧ (ScalarColumn.median ⟨.arrow, [4, 1, 8, 6]⟩).value = 5
    ∧ (ScalarColumn.median ⟨.pandas, [4, 1, 8, 6]⟩).warned = false :=
  ⟨by decide, by
    have h := c8_median [4, 1, 8, 6] [1, 4, 6, 8] (by decide) (by decide) (by decide)
    refine ⟨h.1, h.2.2.1.trans ?_, h.2.1⟩
    norm_num [ScalarColumn.medianOfSorted]⟩

open DataFrame

/-- Counting the trues of a mapped boolean mask is counting the matching
elements (the `mask.sum()` computation of `edit`). -/
theorem count_true_map {α : Type} (p : α → Bool) (l : List α) :
    (l.map p).count true = l.countP p := by
  induction l with
  | nil => rfl
  | cons x xs ih =>
    cases h : p x <;>
      simp [List.count_cons, List.countP_cons, h, ih]

/-- Lookup in a column list after a masked assignment to column c: the looked
up column c is the masked overwrite of the original. -/
theorem colLookup_setMask_self {V : Type} (c : String) (mask : List Bool)
    (v : V) :
    ∀ (cs : List (String × List V)) (col : List V),
      colLookup c cs = some col →
      colLookup c
          (cs.map (fun p => if p.1 = c then (p.1, applyMask mask v p.2) else p))
        = some (applyMask mask v col)
  | [], col => by
      intro h
      simp [colLookup] at h
  | p :: rest, col => by
      intro h
      by_cases hp : p.1 = c
      · simp only [colLookup, hp, if_true, Option.some.injEq] at h
        subst h
        simp [colLookup, hp]
      · simp only [colLookup, hp, if_false] at h
        simpa [colLookup, hp] using colLookup_setMask_self c mask v rest col h

/-- Lookup of any other column is unchanged by a masked assignment to c. -/
theorem colLookup_setMask_ne {V : Type} (c n : String) (mask : List Bool)
    (v : V) (hne : n ≠ c) :
    ∀ cs : List (String × List V),
      colLookup n
          (cs.map (fun p => if p.1 = c then (p.1, applyMask mask v p.2) else p))
        = colLookup n cs
  | [] => rfl
  | p :: rest => by
      have hcn : ¬ (c = n) := fun h => hne h.symm
      by_cases hp : p.1 = c
      · simp [colLookup, hp, hcn, colLookup_setMask_ne c n mask v hne rest]
      · by_cases hpn : p.1 = n
        · simp [colLookup, hp, hpn, hcn, hne]
        · simp [colLookup, hp, hpn, colLookup_setMask_ne c n mask v hne rest]

/-- Lookup commutes with a per-column transformation of the data. -/
theorem colLookup_map_snd {V : Type} (g : List V → List V) (n : String) :
    ∀ cs : List (String × List V),
      colLookup n (cs.map (fun p => (p.1, g p.2))) = (colLookup n cs).map g
  | [] => rfl
  | p :: rest => by
      by_cases hp : p.1 = n
      · simp [colLookup, hp]
      · simp [colLookup, hp, colLookup_map_snd g n rest]

/-- A successful lookup is a membership in the column list. -/
theorem colLookup_mem {V : Type} (n : String) :
    ∀ (cs : List (String × List V)) (col : List V),
      colLookup n cs = some col → (n, col) ∈ cs
  | [], col => by
      intro h
      simp [colLookup] at h
  | p :: rest, col => by
      intro h
      by_cases hp : p.1 = n
      · simp only [colLookup, hp, if_true, Option.some.injEq] at h
        have hpe : p = (n, col) := by
          obtain ⟨p1, p2⟩ := p
          simp only at hp h
          rw [hp, h]
        rw [hpe]
        exact List.mem_cons_self _ _
      · simp only [colLookup, hp, if_false] at h
        exact List.mem_cons_of_mem _ (colLookup_mem n rest col h)

/-- The masked assignment of `edit` overwrites exactly the positions where
the identifier column equals the target key. -/
theorem applyMask_eqMask {V : Type} [DecidableEq V] (k v : V)
    (idcol col : List V) :
    applyMask (idcol.map (fun x => decide (x = k))) v col
      = List.zipWith (fun x old => if x = k then v else old) idcol col := by
  rw [applyMask, List.zipWith_map_left]
  exact congrArg (fun f => List.zipWith f idcol col)
    (funext fun x => funext fun old => by simp)

/-- Filtering with an all-true mask of matching length keeps every element. -/
theorem maskFilter_alltrue {α : Type} :
    ∀ (ms : List Bool) (l : List α), (∀ b ∈ ms, b = true) →
      ms.length = l.length → maskFilter ms l = l
  | [], [], _, _ => rfl
  | [], _ :: _, _, hlen => by simp at hlen
  | _ :: _, [], _, hlen => by simp at hlen
  | b :: ms, x :: xs, hall, hlen => by
      have hb : b = true := hall b (List.mem_cons_self b ms)
      subst hb
      have : maskFilter ms xs = xs :=
        maskFilter_alltrue ms xs (fun b hb => hall b (List.mem_cons_of_mem _ hb))
          (by simpa using hlen)
      simp [maskFilter, this]

/-- Filtering by the mask `arange(n) != i` deletes exactly the element at
position i. -/
theorem maskFilter_range_ne {α : Type} :
    ∀ (l : List α) (i : Nat),
      maskFilter ((List.range l.length).map (fun j => decide (j ≠ i))) l
        = l.eraseIdx i
  | [], _ => rfl
  | x :: xs, 0 => by
      rw [List.length_cons, List.range_succ_eq_map, List.map_cons, List.map_map]
      have h0 : decide (0 ≠ 0) = false := by decide
      rw [h0]
      show maskFilter _ (x :: xs) = xs
      rw [maskFilter]
      exact maskFilter_alltrue _ xs
        (by
          intro b hb
          obtain ⟨j, _, rfl⟩ := List.mem_map.mp hb
          simp)
        (by simp)
  | x :: xs, i + 1 => by
      rw [List.length_cons, List.range_succ_eq_map, List.map_cons, List.map_map]
      have h0 : decide (0 ≠ i + 1) = true := by simp
      rw [h0]
      show x :: maskFilter _ xs = x :: xs.eraseIdx i
      have hcongr :
          (List.range xs.length).map ((fun j => decide (j ≠ i + 1)) ∘ Nat.succ)
            = (List.range xs.length).map (fun j => decide (j ≠ i)) :=
        congrArg (fun f => (List.range xs.length).map f)
          (funext fun j => decide_eq_decide.mpr (by omega))
      rw [hcongr, maskFilter_range_ne xs i]

/-- C1: a cell edit whose identifier value matches at least one row succeeds,
overwrites the target column with the new value exactly at the matching
positions, leaves every other column (and every non-matching cell) unchanged,
and appends exactly one DataFrameModification with scope [column] to the
process-wide queue. -/
theorem c1_edit_success {V : Type} [DecidableEq V] (df : DataFrame V)
    (queue : List DataFrameModification) (v : V) (c ic : String) (k : V)
    (idcol ccol : List V)
    (hic : df.getCol ic = some idcol) (hc : df.getCol c = some ccol)
    (hmatch : k ∈ idcol) :
    ∃ df2,
      edit df queue v c k ic = .ok (df2, queue ++ [⟨df.id, [c]⟩])
      ∧ df2.getCol c
          = some (List.zipWith (fun x old => if x = k then v else old) idcol ccol)
      ∧ (∀ n, n ≠ c → df2.getCol n = df.getCol n)
      ∧ df2.columnNames = df.columnNames
      ∧ df2.id = df.id := by
  have hcount : ¬ (idcol.map (fun x => decide (x = k))).count true = 0 := by
    rw [count_true_map]
    have hpos : 0 < idcol.countP (fun x => decide (x = k)) :=
      List.countP_pos_iff.mpr ⟨k, hmatch, by simp⟩
    omega
  refine ⟨df.setColMasked c (idcol.map (fun x => decide (x = k))) v,
    ?_, ?_, ?_, ?_, rfl⟩
  · unfold edit
    rw [hic]
    simp only [hcount, if_false, hc]
  · rw [← applyMask_eqMask]
    exact colLookup_setMask_self c _ v df.cols ccol hc
  · intro n hn
    exact colLookup_setMask_ne c n _ v hn df.cols
  · show (df.cols.map _).map _ = df.cols.map _
    rw [List.map_map]
    refine List.map_congr_left ?_
    intro p _
    by_cases hp : p.1 = c <;> simp [hp]

/-- Witness for C1 at the spec's example: editing score at id 2 to 99. -/
theorem c1_edit_success_witness :
    exampleDf.getCol "id" = some [1, 2, 3]
    ∧ exampleDf.getCol "score" = some [10, 20, 30]
    ∧ (2 : Int) ∈ [1, 2, 3]
    ∧ ∃ df2,
        edit exampleDf [] 99 "score" (2 : Int) "id"
          = .ok (df2, [] ++ [⟨exampleDf.id, ["score"]⟩])
        ∧ df2.getCol "score"
            = some (List.zipWith
                (fun x old => if x = (2 : Int) then 99 else old)
                [1, 2, 3] [10, 20, 30]) := by
  have h := c1_edit_success exampleDf [] 99 "score" "id" (2 : Int)
    [1, 2, 3] [10, 20, 30] (by decide) (by decide) (by decide)
  obtain ⟨df2, h1, h2, _, _, _⟩ := h
  exact ⟨by decide, by decide, by decide, df2, h1, h2⟩

/-- C3: a cell edit whose identifier predicate matches zero rows raises the
not-found error.  In this embedding the error outcome carries no successor
state: the source raises before the masked assignment and before the
enqueue, so the dataframe is unmutated and nothing is enqueued. -/
theorem c3_edit_zero_match {V : Type} [DecidableEq V] (df : DataFrame V)
    (queue : List DataFrameModification) (v : V) (c ic : String) (k : V)
    (idcol : List V)
    (hic : df.getCol ic = some idcol) (hmiss : k ∉ idcol) :
    edit df queue v c k ic = .error (.notFound "Row with id not found in column") := by
  have hcount : (idcol.map (fun x => decide (x = k))).count true = 0 := by
    rw [count_true_map]
    rw [List.countP_eq_zero]
    intro a ha
    simp only [decide_eq_true_eq]
    intro hak
    exact hmiss (hak ▸ ha)
  unfold edit
  rw [hic]
  simp only [hcount, if_true]

/-- Witness for C3 at the spec's example: id 4 is absent. -/
theorem c3_edit_zero_match_witness :
    exampleDf.getCol "id" = some [1, 2, 3]
    ∧ (4 : Int) ∉ [1, 2, 3]
    ∧ edit exampleDf [] 99 "score" (4 : Int) "id"
        = .error (.notFound "Row with id not found in column") :=
  ⟨by decide, by decide,
    c3_edit_zero_match exampleDf [] 99 "score" "id" (4 : Int) [1, 2, 3]
      (by decide) (by decide)⟩

/-- Boolean-mask row filtering leaves the column names unchanged. -/
theorem columnNames_filterRows {V : Type} (df : DataFrame V)
    (mask : List Bool) : (df.filterRows mask).columnNames = df.columnNames := by
  show (df.cols.map _).map _ = df.cols.map _
  rw [List.map_map]
  rfl

/-- Column lookup after boolean-mask row filtering filters the looked-up
column by the same mask. -/
theorem getCol_filterRows {V : Type} (df : DataFrame V) (mask : List Bool)
    (n : String) :
    (df.filterRows mask).getCol n = (df.getCol n).map (maskFilter mask) :=
  colLookup_map_snd (maskFilter mask) n df.cols

/-- The row count of a boolean-mask filtered dataframe is the filtered length
of its first column. -/
theorem nrows_filterRows {V : Type} (df : DataFrame V) (mask : List Bool) :
    (df.filterRows mask).nrows
      = match df.cols with
        | [] => 0
        | p :: _ => (maskFilter mask p.2).length := by
  rcases df with ⟨cols, pk, i⟩
  cases cols <;> rfl

/-- C2: removing the row at a valid index i yields a dataframe with the same
columns, one fewer row, every column equal to the original with its i-th
entry deleted (remaining rows unchanged and in original relative order), and
appends exactly one DataFrameModification whose scope is all column names. -/
theorem c2_remove_row {V : Type} (df : DataFrame V)
    (queue : List DataFrameModification) (i : Nat)
    (hwf : df.wf) (hi : i < df.nrows) :
    (remove_row_by_index df queue i).1.columnNames = df.columnNames
  ∧ (remove_row_by_index df queue i).1.nrows = df.nrows - 1
  ∧ (∀ n col, df.getCol n = some col →
      (remove_row_by_index df queue i).1.getCol n = some (col.eraseIdx i))
  ∧ (remove_row_by_index df queue i).2 = queue ++ [⟨df.id, df.columnNames⟩] := by
  have hmask : ∀ col : List V, col.length = df.nrows →
      maskFilter ((List.range df.nrows).map (fun j => decide (j ≠ i))) col
        = col.eraseIdx i := by
    intro col hlen
    rw [← hlen]
    exact maskFilter_range_ne col i
  refine ⟨columnNames_filterRows df _, ?_, ?_, ?_⟩
  · have hshape : (remove_row_by_index df queue i).1
        = df.filterRows ((List.range df.nrows).map (fun j => decide (j ≠ i))) :=
      rfl
    rw [hshape, nrows_filterRows]
    cases hdf : df.cols with
    | nil =>
      have hz : df.nrows = 0 := by simp [DataFrame.nrows, hdf]
      omega
    | cons p rest =>
      have hnr : df.nrows = p.2.length := by simp [DataFrame.nrows, hdf]
      show (maskFilter _ p.2).length = df.nrows - 1
      rw [hmask p.2 hnr.symm,
        List.length_eraseIdx_of_lt (by rw [← hnr]; exact hi), hnr]
  · intro n col hcol
    have hmem : (n, col) ∈ df.cols := colLookup_mem n df.cols col hcol
    have hlen : col.length = df.nrows := hwf.2 (n, col) hmem
    show (df.filterRows _).getCol n = _
    rw [getCol_filterRows, hcol, ← hmask col hlen]
    rfl
  · show queue ++ [⟨df.id, (df.filterRows _).columnNames⟩] = _
    rw [columnNames_filterRows]

/-- Witness for C2 at the spec's example dataframe: deleting row 1 of a
3-row dataframe. -/
theorem c2_remove_row_witness :
    exampleDf.wf
    ∧ 1 < exampleDf.nrows
    ∧ (remove_row_by_index exampleDf [] 1).1.nrows = exampleDf.nrows - 1
    ∧ (remove_row_by_index exampleDf [] 1).1.getCol "score" = some [10, 30]
    ∧ (remove_row_by_index exampleDf [] 1).2
        = [] ++ [⟨exampleDf.id, exampleDf.columnNames⟩] := by
  have hwf : exampleDf.wf := ⟨by decide, by decide⟩
  have h := c2_remove_row exampleDf [] 1 hwf (by decide)
  refine ⟨hwf, by decide, h.2.1, ?_, h.2.2.2⟩
  have hs := h.2.2.1 "score" [10, 20, 30] (by decide)
  rw [hs]
  decide

/-- C9: a schema or rows request naming a column absent from the dataframe
fails with the HTTP 404 not-found error before producing any response (and,
the embedding being pure, without touching the dataframe); a request whose
names all exist succeeds. -/
theorem c9_missing_columns {V : Type} [DecidableEq V] [Inhabited V]
    (df : DataFrame V) (cs : List String) :
    ((∃ c ∈ cs, c ∉ df.columnNames) →
      schema df (some cs)
          = .error (.http404 "Requested columns do not exist in dataframe")
        ∧ ∀ start endIdx posidxs key_column keyidxs,
            rows df start endIdx posidxs key_column keyidxs (some cs)
              = .error (.http404 "Requested columns do not exist in dataframe"))
  ∧ ((∀ c ∈ cs, c ∈ df.columnNames) →
      ∃ res, schema df (some cs) = .ok res) := by
  constructor
  · rintro ⟨c, hc, hnotin⟩
    have hcond : (cs.any fun c => ! df.columnNames.contains c) = true := by
      simp
      exact ⟨c, hc, hnotin⟩
    have hinfo : getColumnInfos df (some cs)
        = .error (.http404 "Requested columns do not exist in dataframe") := by
      simp only [getColumnInfos]
      rw [if_pos hcond]
    constructor
    · unfold schema
      rw [hinfo]
      rfl
    · intro start endIdx posidxs key_column keyidxs
      unfold rows
      rw [hinfo]
  · intro hall
    have hcond : (cs.any fun c => ! df.columnNames.contains c) = false := by
      rw [List.any_eq_false]
      intro c hc
      simpa using hall c hc
    have hinfo : getColumnInfos df (some cs)
        = .ok (appendPrimaryKey df (cs.filter (fun c => ! startsWithUnderscore c))) := by
      simp only [getColumnInfos]
      rw [if_neg (by
        simp only [hcond]
        exact Bool.false_ne_true)]
    refine ⟨⟨df.id, appendPrimaryKey df (cs.filter (fun c => ! startsWithUnderscore c)),
      df.nrows, df.primaryKey⟩, ?_⟩
    unfold schema
    rw [hinfo]
    rfl

/-- Witness for C9: requesting the absent column "missing", and requesting
the present columns, on the example dataframe. -/
theorem c9_missing_columns_witness :
    (∃ c ∈ ["missing"], c ∉ exampleDf.columnNames)
    ∧ schema exampleDf (some ["missing"])
        = .error (.http404 "Requested columns do not exist in dataframe")
    ∧ (∀ c ∈ ["id", "score"], c ∈ exampleDf.columnNames)
    ∧ ∃ res, schema exampleDf (some ["id", "score"]) = .ok res := by
  have h := c9_missing_columns exampleDf ["missing"]
  have h2 := c9_missing_columns exampleDf ["id", "score"]
  have hmiss : ∃ c ∈ ["missing"], c ∉ exampleDf.columnNames := by decide
  have hall : ∀ c ∈ ["id", "score"], c ∈ exampleDf.columnNames := by decide
  exact ⟨hmiss, (h.1 hmiss).1, hall, h2.2 hall⟩

/-- Membership in the primary-key appending step: an element either came from
the filtered request list or is the primary key. -/
theorem mem_appendPrimaryKey {V : Type} (df : DataFrame V) (fs : List String)
    (n : String) (h : n ∈ appendPrimaryKey df fs) :
    n ∈ fs ∨ df.primaryKey = some n := by
  cases hpk : df.primaryKey with
  | none =>
    simp only [appendPrimaryKey, hpk] at h
    exact Or.inl h
  | some pk =>
    simp only [appendPrimaryKey, hpk] at h
    by_cases hc : fs.contains pk = true
    · rw [if_pos hc] at h
      exact Or.inl h
    · rw [if_neg hc] at h
      rcases List.mem_append.mp h with h1 | h1
      · exact Or.inl h1
      · right
        exact congrArg some (List.mem_singleton.mp h1).symm

/-- The primary key always survives the appending step. -/
theorem pk_mem_appendPrimaryKey {V : Type} (df : DataFrame V)
    (fs : List String) (pk : String) (h : df.primaryKey = some pk) :
    pk ∈ appendPrimaryKey df fs := by
  simp only [appendPrimaryKey, h]
  by_cases hc : fs.contains pk = true
  · rw [if_pos hc]
    simpa using hc
  · rw [if_neg hc]
    exact List.mem_append.mpr (Or.inr (List.mem_singleton.mpr rfl))

/-- C10 counterexample: a dataframe whose primary key is the
underscore-prefixed column "_id".  The returned column infos DO include the
underscore-prefixed name: it is filtered out of the requested list but then
re-appended as the missing primary key, contradicting the claim that the
returned infos never contain a name starting with an underscore. -/
theorem c10_counterexample :
    getColumnInfos (V := Int) ⟨[("x", [0]), ("_id", [7])], some "_id", 0⟩ none
      = .ok ["x", "_id"]
    ∧ startsWithUnderscore "_id" = true := by
  constructor
  · rfl
  · rfl

/-- C10 (amended): the returned column infos never include a
NON-PRIMARY-KEY column whose name starts with an underscore
(underscore-prefixed names are silently filtered from the requested list even
when present and requested), and the primary key — underscore-prefixed or
not — is always present in the returned infos, appended when absent from the
filtered list. -/
theorem c10_underscore_filter {V : Type} (df : DataFrame V)
    (cs : Option (List String)) (res : List String)
    (h : getColumnInfos df cs = .ok res) :
    (∀ n ∈ res, startsWithUnderscore n = true → df.primaryKey = some n)
  ∧ (∀ pk, df.primaryKey = some pk → pk ∈ res) := by
  have key : ∀ base : List String,
      res = appendPrimaryKey df (base.filter (fun c => ! startsWithUnderscore c)) →
      (∀ n ∈ res, startsWithUnderscore n = true → df.primaryKey = some n)
      ∧ (∀ pk, df.primaryKey = some pk → pk ∈ res) := by
    intro base hres
    subst hres
    constructor
    · intro n hn hu
      rcases mem_appendPrimaryKey df _ n hn with hf | hpk
      · exfalso
        have hnot := (List.mem_filter.mp hf).2
        rw [hu] at hnot
        simp at hnot
      · exact hpk
    · intro pk hpk
      exact pk_mem_appendPrimaryKey df _ pk hpk
  cases cs with
  | none =>
    unfold getColumnInfos at h
    simp only [Except.ok.injEq] at h
    exact key _ h.symm
  | some l =>
    by_cases hcond : (l.any fun c => ! df.columnNames.contains c) = true
    · have herr : getColumnInfos df (some l)
          = .error (.http404 "Requested columns do not exist in dataframe") := by
        simp only [getColumnInfos]
        rw [if_pos hcond]
      rw [herr] at h
      exact absurd h (by simp)
    · have hok : getColumnInfos df (some l)
          = .ok (appendPrimaryKey df (l.filter (fun c => ! startsWithUnderscore c))) := by
        simp only [getColumnInfos]
        rw [if_neg hcond]
      rw [hok] at h
      simp only [Except.ok.injEq] at h
      exact key _ h.symm

/-- Witness for the amended C10 at the counterexample dataframe: the only
underscore-prefixed returned name is the primary key, and the primary key is
in the returned list. -/
theorem c10_underscore_filter_witness :
    getColumnInfos (V := Int) ⟨[("x", [0]), ("_id", [7])], some "_id", 0⟩ none
      = .ok ["x", "_id"]
    ∧ (∀ n ∈ ["x", "_id"], startsWithUnderscore n = true →
        (DataFrame.mk (V := Int) [("x", [0]), ("_id", [7])] (some "_id") 0).primaryKey
          = some n)
    ∧ "_id" ∈ ["x", "_id"] := by
  have h := c10_underscore_filter
    (DataFrame.mk (V := Int) [("x", [0]), ("_id", [7])] (some "_id") 0)
    none ["x", "_id"] rfl
  exact ⟨rfl, h.1, h.2 "_id" rfl⟩

/-- Filtering an empty list by any mask yields the empty list. -/
theorem maskFilter_nil {α : Type} :
    ∀ ms : List Bool, maskFilter ms ([] : List α) = []
  | [] => rfl
  | true :: _ => rfl
  | false :: _ => rfl

/-- Filtering a list by an elementwise-mapped membership mask keeps exactly
the entries whose companion value is in the requested list. -/
theorem maskFilter_mem_zip {α V : Type} [DecidableEq V] (keys : List V) :
    ∀ (bs : List V) (l : List α),
      maskFilter (bs.map (fun x => decide (x ∈ keys))) l
        = (l.zip bs).filterMap
            (fun q => if q.2 ∈ keys then some q.1 else none)
  | [], l => by cases l <;> rfl
  | _ :: _, [] => by
      rw [maskFilter_nil]
      rfl
  | b :: bs, x :: xs => by
      by_cases hb : b ∈ keys <;>
        simp [maskFilter, hb, maskFilter_mem_zip keys bs xs]

/-- A monadic map over Option is none as soon as one element maps to none
(the `df.loc` lookup fails if any requested key is absent). -/
theorem mapM_option_eq_none {α β : Type} (f : α → Option β) :
    ∀ (l : List α) (a : α), a ∈ l → f a = none → l.mapM f = none
  | [], a, ha, _ => absurd ha (List.not_mem_nil a)
  | x :: xs, a, ha, hf => by
      rw [List.mapM_cons]
      rcases List.mem_cons.mp ha with rfl | ha2
      · rw [hf]
        rfl
      · cases hx : f x with
        | none => rfl
        | some y =>
          rw [mapM_option_eq_none f xs a ha2 hf]
          rfl

/-- C4: the two key-lookup access modes of the rows endpoint behave as the
spec flags them, inconsistently.  With an explicit key column, absent keys
are silently dropped: the request succeeds and the result holds exactly the
rows whose key-column value is in the requested list.  Without a key column
(primary-key mode, the `df.loc` lookup), any absent key makes the request
fail with a key-not-found error. -/
theorem c4_key_lookup_modes {V : Type} [DecidableEq V] [Inhabited V]
    (df : DataFrame V) (columns : Option (List String)) (infos : List String)
    (hinfos : getColumnInfos df columns = .ok infos) (keys : List V) :
    (∀ kc kcCol, (df.selectCols infos).getCol kc = some kcCol →
      ∃ resp, rows df none none none (some kc) (some keys) columns = .ok resp
        ∧ resp.rows
            = ((df.selectCols infos).filterRows
                (kcCol.map (fun x => decide (x ∈ keys)))).rowsList
        ∧ (∀ n col, (df.selectCols infos).getCol n = some col →
            ((df.selectCols infos).filterRows
                (kcCol.map (fun x => decide (x ∈ keys)))).getCol n
              = some ((col.zip kcCol).filterMap
                  (fun q => if q.2 ∈ keys then some q.1 else none)))
        ∧ resp.full_length = df.nrows
        ∧ resp.column_infos = infos)
  ∧ (∀ pk pkCol k, (df.selectCols infos).primaryKey = some pk →
      (df.selectCols infos).getCol pk = some pkCol →
      k ∈ keys → k ∉ pkCol →
      rows df none none none none (some keys) columns
        = .error (.keyError "key not found")) := by
  constructor
  · intro kc kcCol hkc
    have hrows : rows df none none none (some kc) (some keys) columns
        = .ok ⟨infos, none,
            ((df.selectCols infos).filterRows
              (kcCol.map (fun x => decide (x ∈ keys)))).rowsList,
            df.nrows,
            ((df.selectCols infos).filterRows
              (kcCol.map (fun x => decide (x ∈ keys)))).primaryKey⟩ := by
      unfold rows
      simp only [hinfos, hkc]
    refine ⟨_, hrows, rfl, ?_, rfl, rfl⟩
    intro n col hcol
    rw [getCol_filterRows, hcol]
    show some (maskFilter _ col) = _
    rw [maskFilter_mem_zip]
  · intro pk pkCol k hpk hpkcol hk hknot
    have hfind : pkCol.findIdx? (fun x => decide (x = k)) = none := by
      rw [List.findIdx?_eq_none_iff]
      intro x hx
      simp only [decide_eq_false_iff_not]
      exact fun hxk => hknot (hxk ▸ hx)
    have hmapM :
        keys.mapM (fun k2 => pkCol.findIdx? (fun x => decide (x = k2))) = none :=
      mapM_option_eq_none _ keys k hk hfind
    have hloc : (df.selectCols infos).locByKeys keys
        = .error (.keyError "key not found") := by
      unfold DataFrame.locByKeys
      simp only [hpk, hpkcol, hmapM]
    unfold rows
    simp only [hinfos, hpk, hloc]
    rfl

/-- Witness for C4 on the primary-key example dataframe: key-column mode with
the absent key 99 succeeds and filters; primary-key mode with the absent key
4 errors. -/
theorem c4_key_lookup_modes_witness :
    getColumnInfos exampleDfPk none = .ok ["id", "score"]
    ∧ (exampleDfPk.selectCols ["id", "score"]).getCol "score" = some [10, 20, 30]
    ∧ (∃ resp,
        rows exampleDfPk none none none (some "score") (some [10, 99]) none
          = .ok resp
        ∧ resp.rows
            = ((exampleDfPk.selectCols ["id", "score"]).filterRows
                ([10, 20, 30].map
                  (fun x => decide (x ∈ ([10, 99] : List Int))))).rowsList)
    ∧ (exampleDfPk.selectCols ["id", "score"]).primaryKey = some "id"
    ∧ (exampleDfPk.selectCols ["id", "score"]).getCol "id" = some [1, 2, 3]
    ∧ (4 : Int) ∈ [2, 4]
    ∧ (4 : Int) ∉ [1, 2, 3]
    ∧ rows exampleDfPk none none none none (some [2, 4]) none
        = .error (.keyError "key not found") := by
  have hA := c4_key_lookup_modes exampleDfPk none ["id", "score"] rfl
    ([10, 99] : List Int)
  have hB := c4_key_lookup_modes exampleDfPk none ["id", "score"] rfl
    ([2, 4] : List Int)
  obtain ⟨resp, hr1, hr2, _, _, _⟩ := hA.1 "score" [10, 20, 30] rfl
  refine ⟨rfl, rfl, ⟨resp, hr1, hr2⟩, rfl, rfl, by decide, by decide, ?_⟩
  exact hB.2 "id" [1, 2, 3] 4 rfl rfl (by decide) (by decide)

end Meerkat
